import Mathlib

/-!
Shallow embedding of the Shopify order/product synchronization pipeline:
the order-sync endpoint (api/shopify/sync-orders.ts), the fleet-wide cron
trigger, and the connection cleanup routine with its database trigger.
Machine-level I/O (HTTP fetch outcomes, database write failures) is passed
in as explicit oracle arguments; wall-clock time is an abstract tick counter
advanced at each clock read.
-/

set_option maxHeartbeats 1000000

namespace Shop

/-- Sync mode, from the query parameter: mode === (the string manual) picks
manual, anything else is auto. -/
inductive Mode
  | manual
  | auto
deriving DecidableEq, Repr

def modeStr : Mode → String
  | .manual => "manual"
  | .auto => "auto"

/-- Nested customer object of an external Shopify order record. -/
structure Customer where
  email : Option String
deriving DecidableEq, Repr

/-- The line_items field of an external record: either a JSON array (whose
elements we keep opaque as strings) or any non-array value (including
absent/undefined), mirroring the Array.isArray check in the source. -/
inductive LineItemsField
  | arr (items : List String)
  | notArr
deriving DecidableEq, Repr

/-- External Shopify order record as consumed by the mapping in
sync-orders.ts.  Absent or null JSON fields are modelled as none. -/
structure ShopifyOrder where
  id : Int
  total_price : Option String
  currency : Option String
  email : Option String
  customer : Option Customer
  financial_status : Option String
  fulfillment_status : Option String
  created_at : String
  line_items : LineItemsField
deriving DecidableEq, Repr

/-- JS truthiness for an optional string: null/undefined and the empty
string are falsy. -/
def jsTruthy : Option String → Bool
  | none => false
  | some s => !s.isEmpty

/-- Value of a digit list read in base 10. -/
def digitsVal (cs : List Char) : Nat :=
  cs.foldl (fun a c => a * 10 + (c.toNat - 48)) 0

/-- JS parseFloat on a decimal string: optional minus sign, integer digits,
optional fraction after a dot; trailing garbage ignored; none models NaN. -/
def jsParseFloat (s : String) : Option Rat :=
  let cs := s.data
  let sign : Int := match cs with
    | c :: _ => if c = '-' then -1 else 1
    | [] => 1
  let cs1 := match cs with
    | c :: t => if c = '-' then t else cs
    | [] => cs
  let intPart := cs1.takeWhile Char.isDigit
  let rest := cs1.dropWhile Char.isDigit
  let fracPart := match rest with
    | c :: t => if c = '.' then t.takeWhile Char.isDigit else []
    | [] => []
  if intPart.isEmpty && fracPart.isEmpty then none
  else
    some ((sign : Rat) * ((digitsVal intPart : Rat) +
      (digitsVal fracPart : Rat) / ((10 : Rat) ^ fracPart.length)))

/-- Persisted Order row, mirroring the row shape built in sync-orders.ts
step 5.  total_price is the parseFloat result (none models NaN). -/
structure OrderRow where
  connection_id : Nat
  order_id : String
  shopify_order_id : String
  total_price : Option Rat
  currency : String
  customer_email : Option String
  financial_status : Option String
  fulfillment_status : String
  order_date : String
  customer : Option Customer
  line_items : List String
deriving DecidableEq, Repr

/-- The row mapping applied to each external order record before upsert
(sync-orders.ts lines 123-135). -/
def mapOrder (connectionId : Nat) (o : ShopifyOrder) : OrderRow :=
  { connection_id := connectionId
    order_id := toString o.id
    shopify_order_id := toString o.id
    total_price :=
      if jsTruthy o.total_price then jsParseFloat (o.total_price.getD "")
      else some 0
    currency := if jsTruthy o.currency then o.currency.getD "" else "USD"
    customer_email :=
      if jsTruthy o.email then o.email
      else if jsTruthy (o.customer.bind Customer.email) then
        o.customer.bind Customer.email
      else none
    financial_status :=
      if jsTruthy o.financial_status then o.financial_status else none
    fulfillment_status :=
      if jsTruthy o.fulfillment_status then o.fulfillment_status.getD ""
      else "unfulfilled"
    order_date := o.created_at
    customer := o.customer
    line_items := match o.line_items with
      | .arr items => items
      | .notArr => [] }

/-- Conflict key of the orders upsert: (connection_id, order_id). -/
def okey (r : OrderRow) : Nat × String :=
  (r.connection_id, r.order_id)

/-- Upsert of one row keyed on (connection_id, order_id): overwrite all
columns of the conflicting row if the key is present, else insert. -/
def upsertOne (tbl : List OrderRow) (r : OrderRow) : List OrderRow :=
  if tbl.any (fun x => okey x = okey r) then
    tbl.map (fun x => if okey x = okey r then r else x)
  else
    tbl ++ [r]

/-- Batch upsert (supabase .upsert with onConflict connection_id,order_id
and ignoreDuplicates false), applied row by row. -/
def upsertOrders (tbl : List OrderRow) (rows : List OrderRow) : List OrderRow :=
  rows.foldl upsertOne tbl

/-- Connection row (shopify_connections), fields used by the sync engine. -/
structure Conn where
  id : Nat
  user_id : String
  store_url : String
  encrypted_access_token : String
  is_active : Bool
  last_sync_at : Option Nat
deriving DecidableEq, Repr

/-- Sync log row (sync_logs). Timestamps are abstract clock ticks. -/
structure SyncLog where
  id : Nat
  connection_id : Nat
  sync_type : String
  status : String
  items_processed : Nat
  error_message : Option String
  started_at : Option Nat
  completed_at : Option Nat
  cursor_state : Option String
  created_by : Option String
deriving DecidableEq, Repr

/-- Product row (products), fields relevant to connection cleanup. -/
structure ProductRow where
  connection_id : Nat
  product_id : String
deriving DecidableEq, Repr

/-- The relational store: the four tables plus a fresh-id source for log
inserts (gen_random_uuid modelled as a counter). -/
structure DB where
  connections : List Conn
  orders : List OrderRow
  products : List ProductRow
  sync_logs : List SyncLog
  next_log_id : Nat
deriving DecidableEq, Repr

/-- Outcome of the single-page Shopify orders fetch, as seen by the handler:
a parsed body plus the continuation cursor extracted from the link header,
an HTTP 429, or another non-2xx failure. -/
inductive FetchOutcome
  | ok (orders : List ShopifyOrder) (nextCursor : Option String)
  | rateLimited
  | httpError (status : Nat) (body : String)
deriving DecidableEq, Repr

/-- Response of one sync-orders invocation. -/
inductive SyncResp
  | success (processed : Nat) (next_cursor : Option String)
      (sync_log_id : Option Nat)
  | error (status : Nat) (msg : String)
deriving DecidableEq, Repr

/-- Query string built for the first fetch of a page
(sync-orders.ts lines 83-96). -/
structure ReqParams where
  limit : Nat
  page_info : Option String
  status_any : Bool
  updated_at_min : Option Nat
  order_updated_asc : Bool
deriving DecidableEq, Repr

/-- Request construction: a saved cursor is used verbatim; otherwise the
first page filters status=any and, in auto mode with a recorded last-sync
timestamp, adds updated_at_min of that timestamp and ascending updated_at
ordering. -/
def buildParams (mode : Mode) (cursor : Option String)
    (lastSyncAt : Option Nat) : ReqParams :=
  match cursor with
  | some c =>
      { limit := 250, page_info := some c, status_any := false
        updated_at_min := none, order_updated_asc := false }
  | none =>
      { limit := 250, page_info := none, status_any := true
        updated_at_min :=
          match mode, lastSyncAt with
          | .auto, some t => some t
          | _, _ => none
        order_updated_asc :=
          match mode, lastSyncAt with
          | .auto, some _ => true
          | _, _ => false }

/-- Lookup of the single active connection for a user
(.eq user_id .eq is_active true .single). -/
def findActiveConn (db : DB) (userId : String) : Option Conn :=
  db.connections.find? (fun c => c.user_id = userId && c.is_active)

/-- Lookup of a sync log row by id (.eq id .single). -/
def logFind (db : DB) (logId : Nat) : Option SyncLog :=
  db.sync_logs.find? (fun l => l.id = logId)

/-- Update of sync_logs rows matching an optional id (.update .eq id);
a null id matches no row. -/
def updateLogs (db : DB) (logId : Option Nat) (f : SyncLog → SyncLog) : DB :=
  match logId with
  | none => db
  | some i =>
      { db with sync_logs :=
          db.sync_logs.map (fun l => if l.id = i then f l else l) }

/-- Update of shopify_connections rows matching an id (.update .eq id). -/
def updateConns (db : DB) (connId : Nat) (f : Conn → Conn) : DB :=
  { db with connections :=
      db.connections.map (fun c => if c.id = connId then f c else c) }

/-- One invocation of the sync-orders endpoint (sync-orders.ts handler,
steps 1-8): resolve the connection, create a sync log on a fresh run, take
the fetch outcome, map and upsert the page, update the log, and stamp the
connection when no continuation remains.  t is the wall-clock tick,
advanced at each new Date() call; fetch is the outcome of the single
Shopify page fetch; upsertErr injects the row-store failure of the batch
upsert (none when the upsert succeeds).  Returns the store, the clock, and
the HTTP response. -/
def syncOrders (db : DB) (t : Nat) (userId : String) (mode : Mode)
    (cursor : Option String) (syncLogId : Option Nat)
    (fetch : FetchOutcome) (upsertErr : Option String) :
    DB × Nat × SyncResp :=
  match findActiveConn db userId with
  | none => (db, t, .error 400 "No active Shopify connection found")
  | some conn =>
    let fresh := cursor.isNone && syncLogId.isNone
    let db1 : DB :=
      if fresh then
        { db with
            sync_logs := db.sync_logs ++
              [{ id := db.next_log_id
                 connection_id := conn.id
                 sync_type := "orders:" ++ modeStr mode
                 status := "in_progress"
                 items_processed := 0
                 error_message := none
                 started_at := some t
                 completed_at := none
                 cursor_state := none
                 created_by := some userId }]
            next_log_id := db.next_log_id + 1 }
      else db
    let t1 := if fresh then t + 1 else t
    let currentLogId : Option Nat :=
      if fresh then some db.next_log_id else syncLogId
    match fetch with
    | .rateLimited =>
        (db1, t1, .error 429 "Shopify API rate limit exceeded. Retry later.")
    | .httpError status body =>
        (db1, t1,
          .error 500 ("Shopify API error " ++ toString status ++ ": " ++ body))
    | .ok orders nextCursor =>
      let rows := orders.map (mapOrder conn.id)
      if !orders.isEmpty && upsertErr.isSome then
        let msg := upsertErr.getD ""
        let db2 := updateLogs db1 currentLogId (fun l =>
          { l with status := "error", error_message := some msg
                   completed_at := some t1 })
        (db2, t1 + 1, .error 500 ("DB Upsert failed: " ++ msg))
      else
        let db2 : DB :=
          if orders.isEmpty then db1
          else { db1 with orders := upsertOrders db1.orders rows }
        let newItemsCount := if orders.isEmpty then 0 else rows.length
        let t2 := if nextCursor.isSome then t1 else t1 + 1
        let db3 :=
          match currentLogId with
          | none => db2
          | some lid =>
            let prev := ((logFind db2 lid).map SyncLog.items_processed).getD 0
            updateLogs db2 (some lid) (fun l =>
              { l with
                  items_processed := prev + newItemsCount
                  status := if nextCursor.isSome then "in_progress"
                            else "success"
                  completed_at := if nextCursor.isSome then none
                                  else some t1
                  cursor_state := nextCursor })
        let db4 :=
          if nextCursor.isSome then db3
          else updateConns db3 conn.id (fun c =>
            { c with last_sync_at := some t2 })
        let t3 := if nextCursor.isSome then t2 else t2 + 1
        (db4, t3, .success newItemsCount nextCursor currentLogId)

/-- One run of the sync driven page by page, as orchestrated by the callers
(autoSync.ts loop): each invocation consumes the next fetch outcome and
injected upsert failure; the caller echoes the returned cursor and log id
into the next invocation, stops when has_more is false, and aborts the loop
on an error response.  Returns the store/clock/response after each
invocation, in order. -/
def runSync (userId : String) (mode : Mode) :
    List (FetchOutcome × Option String) → DB → Nat →
    Option String → Option Nat → List (DB × Nat × SyncResp)
  | [], _, _, _, _ => []
  | (f, ue) :: rest, db, t, cursor, logId =>
    let step := syncOrders db t userId mode cursor logId f ue
    step ::
      (match step.2.2 with
       | .success _ rc rlid =>
           if rc.isSome then runSync userId mode rest step.1 step.2.1 rc rlid
           else []
       | .error _ _ => [])

/-- Kind of downstream endpoint the cron trigger invokes for one owner. -/
inductive CallKind
  | ordersManual
  | products
deriving DecidableEq, Repr

/-- One recorded downstream invocation of the cron trigger. -/
structure CronCall where
  user : String
  kind : CallKind
deriving DecidableEq, Repr

/-- Outcome of a downstream fetch as the cron code observes it: an HTTP
reply carrying the ok flag and the parsed JSON fields it reads (success,
items_processed when present, has_more/next_cursor when present), or a
thrown network error. -/
inductive CallOutcome
  | resp (ok : Bool) (success : Bool) (items_processed : Option Nat)
      (has_more : Bool)
  | threw
deriving DecidableEq, Repr

/-- Per-owner entry of the cron aggregate response. -/
structure CronUserResult where
  user : String
  orders_ok : Bool
  orders_items : Nat
  products_ok : Bool
  products_items : Nat
deriving DecidableEq, Repr

/-- Request to the cron endpoint: method plus every place the shared
secret may be supplied (body keys CRON_SECRET and cron_token, headers
x-cron-token / x-cron-secret / cron_secret, query cron_token); an absent
value is the empty string, as the source defaults each with a disjunction. -/
structure CronReq where
  methodIsPost : Bool
  body_CRON_SECRET : String
  body_cron_token : String
  header_x_cron_token : String
  header_x_cron_secret : String
  header_cron_secret : String
  query_cron_token : String
deriving DecidableEq, Repr

/-- JS short-circuit disjunction over strings: first truthy (non-empty)
value, else the empty string. -/
def jsOrStr (a b : String) : String :=
  if a.isEmpty then b else a

/-- The token the cron handler extracts from the request. -/
def cronProvidedToken (req : CronReq) : String :=
  jsOrStr req.body_CRON_SECRET (jsOrStr req.body_cron_token
    (jsOrStr req.header_x_cron_token (jsOrStr req.header_x_cron_secret
      (jsOrStr req.header_cron_secret req.query_cron_token))))

/-- Aggregate response of the cron endpoint. -/
inductive CronOut
  | methodNotAllowed
  | unauthorized
  | ok (users_processed : Nat) (orders_synced : Nat) (products_synced : Nat)
      (statuses : List CronUserResult)
deriving DecidableEq, Repr

/-- Helper for jsUniq, carrying the set of values already emitted. -/
def jsUniqAux : List String → List String → List String
  | [], _ => []
  | x :: xs, seen =>
      if x ∈ seen then jsUniqAux xs seen
      else x :: jsUniqAux xs (x :: seen)

/-- JS Set-based dedup: keeps the first occurrence of each element, in
encounter order. -/
def jsUniq (l : List String) : List String :=
  jsUniqAux l []

/-- What the cron trigger does for one owner: one POST to
sync-orders?mode=manual with only the user id (no cursor, no log id), then
one POST to sync-products; each call is wrapped in its own try/catch, a
thrown call leaving ok=false and items 0. -/
def cronUserStep (oracle : CallKind → String → CallOutcome)
    (u : String) : CronUserResult :=
  let o1 := oracle .ordersManual u
  let ordersPart : Bool × Nat :=
    match o1 with
    | .resp ok s items _ => (ok && s, items.getD 0)
    | .threw => (false, 0)
  let o2 := oracle .products u
  let productsPart : Bool × Nat :=
    match o2 with
    | .resp ok s items _ => (ok && s, items.getD 0)
    | .threw => (false, 0)
  { user := u
    orders_ok := ordersPart.1
    orders_items := ordersPart.2
    products_ok := productsPart.1
    products_items := productsPart.2 }

/-- The fleet-wide cron trigger (sync-cron handler): POST only, shared
secret checked against CRON_SECRET failing closed, load the owners of
active connections, dedup them, invoke the per-owner calls, and aggregate
the per-owner outcomes and the item totals of successful calls.  Also
returns the trace of downstream calls made, in order. -/
def cronHandler (envSecret : String) (req : CronReq)
    (connections : List Conn)
    (oracle : CallKind → String → CallOutcome) :
    CronOut × List CronCall :=
  if !req.methodIsPost then (.methodNotAllowed, [])
  else if envSecret.isEmpty || cronProvidedToken req ≠ envSecret then
    (.unauthorized, [])
  else
    let users := jsUniq ((connections.filter Conn.is_active).map Conn.user_id)
    let results := users.map (cronUserStep oracle)
    let trace := users.flatMap (fun u =>
      [{ user := u, kind := .ordersManual }, { user := u, kind := .products }])
    let totalOrders := (results.map (fun r =>
      if r.orders_ok then r.orders_items else 0)).sum
    let totalProducts := (results.map (fun r =>
      if r.products_ok then r.products_items else 0)).sum
    (.ok users.length totalOrders totalProducts results, trace)

/-- Result of the connection-deletion service call. -/
structure DeleteResult where
  success : Bool
  errText : Option String
deriving DecidableEq, Repr

/-- The cleanup_user_data database trigger (AFTER UPDATE on
shopify_connections): when a row flips from active to inactive, delete the
orders and sync logs of that connection and insert one cleanup sync log
entry with status success. -/
def cleanupTrigger (db : DB) (oldRow newRow : Conn) (t : Nat) : DB :=
  if oldRow.is_active && !newRow.is_active then
    { db with
        orders := db.orders.filter (fun o => o.connection_id ≠ newRow.id)
        sync_logs :=
          (db.sync_logs.filter (fun l => l.connection_id ≠ newRow.id)) ++
          [{ id := db.next_log_id
             connection_id := newRow.id
             sync_type := "cleanup"
             status := "success"
             items_processed := 0
             error_message := some "User connection deactivated - data cleaned up"
             started_at := some t
             completed_at := some t
             cursor_state := none
             created_by := some newRow.user_id }]
        next_log_id := db.next_log_id + 1 }
  else db

/-- Update shopify_connections set is_active=false where id matches, with
the AFTER UPDATE trigger firing once per updated row. -/
def setInactiveWithTrigger (db : DB) (connId : Nat) (t : Nat) : DB :=
  let affected := db.connections.filter (fun c => c.id = connId)
  let db1 := updateConns db connId (fun c => { c with is_active := false })
  affected.foldl
    (fun acc c => cleanupTrigger acc c { c with is_active := false } t) db1

/-- deleteUserConnection (shopifyApi service): find the user's active
connection, delete its orders, delete its sync logs, then deactivate the
connection (which fires the database cleanup trigger). -/
def deleteUserConnection (db : DB) (userId : String) (t : Nat) :
    DB × DeleteResult :=
  match findActiveConn db userId with
  | none => (db, { success := false, errText := some "No active connection found" })
  | some conn =>
    let db1 := { db with
      orders := db.orders.filter (fun o => o.connection_id ≠ conn.id) }
    let db2 := { db1 with
      sync_logs := db1.sync_logs.filter (fun l => l.connection_id ≠ conn.id) }
    let db3 := setInactiveWithTrigger db2 conn.id t
    (db3, { success := true, errText := none })

/-- Items-processed counter of a sync log row, 0 when the row is absent
(the code reads currentLog?.items_processed || 0). -/
def itemsOfLog (db : DB) (logId : Nat) : Nat :=
  ((logFind db logId).map SyncLog.items_processed).getD 0

/-- Items-processed counter of a log row as observed after an invocation. -/
def itemsAt (logId : Nat) (s : DB × Nat × SyncResp) : Nat :=
  itemsOfLog s.1 logId

/-- Status of a log row as observed after an invocation (empty string when
the row is absent). -/
def statusAt (logId : Nat) (s : DB × Nat × SyncResp) : String :=
  ((logFind s.1 logId).map SyncLog.status).getD ""

/-- last_sync_at of the first connection row with the given id. -/
def lastSyncOf (db : DB) (connId : Nat) : Option Nat :=
  match db.connections.find? (fun c => c.id = connId) with
  | some c => c.last_sync_at
  | none => none

/-- Per-owner entries of a cron response (empty on a rejected request). -/
def statusesOf : CronOut → List CronUserResult
  | .ok _ _ _ statuses => statuses
  | _ => []

/-- Strengthened step relation used to derive the monotonicity claim:
counters are non-decreasing and a state whose log status left in_progress
never returns to it. -/
def RunRel (logId : Nat) (s1 s2 : DB × Nat × SyncResp) : Prop :=
  itemsAt logId s1 ≤ itemsAt logId s2 ∧
  (statusAt logId s1 ≠ "in_progress" → statusAt logId s2 ≠ "in_progress")

instance (logId : Nat) : IsTrans (DB × Nat × SyncResp) (RunRel logId) where
  trans := fun _ _ _ h1 h2 =>
    ⟨le_trans h1.1 h2.1, fun hs => h2.2 (h1.2 hs)⟩

/-- The table binds the key of row r to exactly the value r: the key is
present and every row carrying it equals r. -/
def bindsTo (tbl : List OrderRow) (r : OrderRow) : Prop :=
  okey r ∈ tbl.map okey ∧ ∀ x ∈ tbl, okey x = okey r → x = r

/-- Concrete external order record with every optional field absent. -/
def oBare : ShopifyOrder :=
  { id := 1001, total_price := none, currency := none, email := none
    customer := none, financial_status := none, fulfillment_status := none
    created_at := "2024-01-01", line_items := .notArr }

/-- Concrete external order record with a nested customer email. -/
def oNested : ShopifyOrder :=
  { oBare with id := 1002, customer := some { email := some "x@y.z" } }

/-- Concrete external order record with populated fields. -/
def oFull : ShopifyOrder :=
  { id := 1003, total_price := some "19.99", currency := some "EUR"
    email := some "a@b.c", customer := none
    financial_status := some "paid", fulfillment_status := some "fulfilled"
    created_at := "2024-02-02", line_items := .arr ["itemA", "itemB"] }

/-- Concrete active connection. -/
def connW : Conn :=
  { id := 1, user_id := "u1", store_url := "https://s.myshopify.com"
    encrypted_access_token := "tok", is_active := true
    last_sync_at := some 50 }

/-- Concrete store holding just the active connection. -/
def dbW : DB :=
  { connections := [connW], orders := [], products := [], sync_logs := []
    next_log_id := 10 }

/-- Concrete prior sync log row for the cleanup scenario. -/
def logW (i : Nat) : SyncLog :=
  { id := i, connection_id := 1, sync_type := "orders:auto"
    status := "success", items_processed := 4, error_message := none
    started_at := some 1, completed_at := some 2, cursor_state := none
    created_by := some "u1" }

/-- Concrete store for the disconnect-cleanup scenario: the connection owns
5 orders, 2 products and 3 sync log entries. -/
def dbCleanup : DB :=
  { connections := [connW]
    orders := [oBare, { oBare with id := 2 }, { oBare with id := 3 },
      { oBare with id := 4 }, { oBare with id := 5 }].map (mapOrder 1)
    products := [{ connection_id := 1, product_id := "p1" },
      { connection_id := 1, product_id := "p2" }]
    sync_logs := [logW 3, logW 4, logW 5]
    next_log_id := 10 }

/-- Concrete authorized cron request (secret in the x-cron-token header). -/
def cronReqW : CronReq :=
  { methodIsPost := true, body_CRON_SECRET := "", body_cron_token := ""
    header_x_cron_token := "s", header_x_cron_secret := ""
    header_cron_secret := "", query_cron_token := "" }

/-- Concrete downstream oracle whose orders response carries a continuation
(has_more true), as a 250-row first page would. -/
def oracleW : CallKind → String → CallOutcome
  | .ordersManual, _ => .resp true true none true
  | .products, _ => .resp true true (some 3) false

/-- Concrete in_progress sync log row of a run whose first page already
processed 5 items and saved a cursor. -/
def logInProg : SyncLog :=
  { id := 10, connection_id := 1, sync_type := "orders:manual"
    status := "in_progress", items_processed := 5, error_message := none
    started_at := some 0, completed_at := none, cursor_state := some "pg"
    created_by := some "u1" }

/-- Concrete store mid-run: the active connection plus the in_progress log
row of the run being resumed. -/
def dbResume : DB :=
  { dbW with sync_logs := [logInProg], next_log_id := 11 }

/-- Mapping a function over a list commutes with find? when the function
preserves the predicate. -/
theorem find?_map_of_pred {α : Type} (f : α → α) (p : α → Bool)
    (h : ∀ a, p (f a) = p a) :
    ∀ l : List α, (l.map f).find? p = (l.find? p).map f := by
  intro l
  induction l with
  | nil => rfl
  | cons a l ih =>
    by_cases ha : p a
    · simp [List.find?_cons, h a, ha]
    · simp only [List.map_cons, List.find?_cons, h a,
        Bool.not_eq_true] at *
      simp [ha, ih]

/-- In a list whose rows all have ids different from a freshly appended
row, the id-keyed per-row update finds exactly the updated fresh row. -/
theorem logFind_fresh_updated (logs : List SyncLog) (nl : SyncLog)
    (f : SyncLog → SyncLog) (i : Nat) (hnl : nl.id = i)
    (hfresh : ∀ l ∈ logs, l.id ≠ i)
    (hfid : ∀ l, (f l).id = l.id) :
    ((logs ++ [nl]).map (fun l => if l.id = i then f l else l)).find?
      (fun l => l.id = i) = some (f nl) := by
  have hinv : ∀ l : SyncLog,
      (decide ((if l.id = i then f l else l).id = i)) =
        decide (l.id = i) := by
    intro l
    by_cases h : l.id = i <;> simp [h, hfid]
  rw [find?_map_of_pred _ _ hinv]
  rw [List.find?_append]
  have hnone : logs.find? (fun l => l.id = i) = none :=
    List.find?_eq_none.mpr (by
      intro x hx
      simp [hfresh x hx])
  simp [hnone, List.find?_cons, hnl]

/-- Appending a row with a fresh id and looking it up by that id finds it. -/
theorem logFind_append_fresh (logs : List SyncLog) (nl : SyncLog) (i : Nat)
    (hnl : nl.id = i) (hfresh : ∀ l ∈ logs, l.id ≠ i) :
    (logs ++ [nl]).find? (fun l => l.id = i) = some nl := by
  rw [List.find?_append]
  have hnone : logs.find? (fun l => l.id = i) = none :=
    List.find?_eq_none.mpr (by intro x hx; simp [hfresh x hx])
  simp [hnone, List.find?_cons, hnl]

/-- Lookup by id through the id-keyed per-row update. -/
theorem logFind_update (logs : List SyncLog) (i : Nat) (f : SyncLog → SyncLog)
    (hfid : ∀ l, (f l).id = l.id) :
    (logs.map (fun l => if l.id = i then f l else l)).find?
      (fun l => l.id = i) = (logs.find? (fun l => l.id = i)).map f := by
  have hinv : ∀ l : SyncLog,
      (decide ((if l.id = i then f l else l).id = i)) =
        decide (l.id = i) := by
    intro l
    by_cases h : l.id = i <;> simp [h, hfid]
  rw [find?_map_of_pred _ _ hinv]
  cases hfind : logs.find? (fun l => l.id = i) with
  | none => rfl
  | some l0 =>
    have hl0 : l0.id = i := by simpa using List.find?_some hfind
    simp [hl0]

/-- Collapse of the conditional around an empty-page upsert: upserting the
mapped empty batch is a no-op anyway. -/
theorem upsert_collapse (p : List ShopifyOrder) (f : ShopifyOrder → OrderRow)
    (tbl : List OrderRow) :
    (if p.isEmpty then tbl else upsertOrders tbl (p.map f)) =
      upsertOrders tbl (p.map f) := by
  cases p with
  | nil => rfl
  | cons a l => rfl

/-- Collapse of the conditional around an empty-page count. -/
theorem count_collapse (p : List ShopifyOrder) (f : ShopifyOrder → OrderRow) :
    (if p.isEmpty then 0 else (p.map f).length) = p.length := by
  cases p <;> simp

/-- Observation of the freshly updated row through any projection. -/
theorem logFind_fresh_updated_map {β : Type} (g : SyncLog → β)
    (logs : List SyncLog) (nl : SyncLog) (f : SyncLog → SyncLog) (i : Nat)
    (hnl : nl.id = i) (hfresh : ∀ l ∈ logs, l.id ≠ i)
    (hfid : ∀ l, (f l).id = l.id) :
    Option.map g
      (((logs ++ [nl]).map (fun l => if l.id = i then f l else l)).find?
        (fun l => l.id = i)) = some (g (f nl)) := by
  rw [logFind_fresh_updated logs nl f i hnl hfresh hfid]
  rfl

/-- Stamping last_sync_at through the id-keyed connection update sets the
observed last-sync value when a row with that id exists. -/
theorem lastSyncOf_updateConns_stamp (db : DB) (connId v : Nat)
    (hex : ∃ c ∈ db.connections, c.id = connId) :
    lastSyncOf
      (updateConns db connId (fun c => { c with last_sync_at := some v }))
      connId = some v := by
  have hinv : ∀ c : Conn,
      (decide ((if c.id = connId then { c with last_sync_at := some v }
          else c).id = connId)) = decide (c.id = connId) := by
    intro c
    by_cases h : c.id = connId <;> simp [h]
  have hsome : (db.connections.find? (fun c => c.id = connId)).isSome := by
    obtain ⟨c, hc, hcid⟩ := hex
    exact List.find?_isSome.mpr ⟨c, hc, by simp [hcid]⟩
  obtain ⟨c0, hc0⟩ := Option.isSome_iff_exists.mp hsome
  have hc0id : c0.id = connId := by
    have := List.find?_some hc0
    simpa using this
  simp only [lastSyncOf, updateConns]
  rw [find?_map_of_pred _ _ hinv, hc0]
  simp [hc0id]

/-- The batch membership test of upsertOne agrees with key membership. -/
theorem any_okey_iff (tbl : List OrderRow) (r : OrderRow) :
    tbl.any (fun x => okey x = okey r) = true ↔ okey r ∈ tbl.map okey := by
  simp [List.any_eq_true]

/-- Keys after a single upsert: unchanged on overwrite, extended by the new
key on insert. -/
theorem keys_upsertOne (tbl : List OrderRow) (r : OrderRow) :
    (upsertOne tbl r).map okey =
      if tbl.any (fun x => okey x = okey r) then tbl.map okey
      else tbl.map okey ++ [okey r] := by
  unfold upsertOne
  by_cases h : tbl.any (fun x => okey x = okey r) = true
  · simp only [h, if_true, List.map_map]
    apply List.map_congr_left
    intro x _
    by_cases hx : okey x = okey r
    · simp [hx]
    · simp [hx]
  · simp [h]

/-- A single upsert preserves key uniqueness. -/
theorem nodup_keys_upsertOne (tbl : List OrderRow) (r : OrderRow)
    (h : (tbl.map okey).Nodup) : ((upsertOne tbl r).map okey).Nodup := by
  rw [keys_upsertOne]
  by_cases ha : tbl.any (fun x => okey x = okey r) = true
  · simp [ha, h]
  · have : okey r ∉ tbl.map okey := fun hm => ha ((any_okey_iff tbl r).mpr hm)
    simp [ha, List.nodup_append, h, this]

/-- A batch upsert preserves key uniqueness. -/
theorem nodup_keys_upsertOrders (rows : List OrderRow) :
    ∀ tbl : List OrderRow, (tbl.map okey).Nodup →
      ((upsertOrders tbl rows).map okey).Nodup := by
  induction rows with
  | nil => intro tbl h; exact h
  | cons r rest ih =>
    intro tbl h
    exact ih (upsertOne tbl r) (nodup_keys_upsertOne tbl r h)

/-- After upserting r, the table binds the key of r to r. -/
theorem bindsTo_upsertOne_self (tbl : List OrderRow) (r : OrderRow) :
    bindsTo (upsertOne tbl r) r := by
  unfold bindsTo upsertOne
  by_cases h : tbl.any (fun x => okey x = okey r) = true
  · constructor
    · rw [show (if (tbl.any fun x => okey x = okey r) = true then
          tbl.map (fun x => if okey x = okey r then r else x)
        else tbl ++ [r]) = tbl.map (fun x => if okey x = okey r then r else x)
        from by simp [h]]
      obtain ⟨x, hx, hxe⟩ := List.any_eq_true.mp h
      refine List.mem_map.mpr ⟨r, ?_, rfl⟩
      refine List.mem_map.mpr ⟨x, hx, ?_⟩
      simp at hxe
      simp [hxe]
    · intro x hx hxe
      simp only [h, if_true, List.mem_map] at hx
      obtain ⟨y, _, hy⟩ := hx
      by_cases hyk : okey y = okey r
      · rw [← hy]; simp [hyk]
      · rw [← hy] at hxe; simp [hyk] at hxe
  · constructor
    · simp [h]
    · intro x hx hxe
      simp only [h, Bool.false_eq_true, if_false, List.mem_append,
        List.mem_singleton] at hx
      cases hx with
      | inl hmem =>
        exact absurd ((any_okey_iff tbl r).mpr
          (List.mem_map.mpr ⟨x, hmem, hxe⟩)) h
      | inr he => exact he

/-- Upserting a row with a different key preserves an existing binding. -/
theorem bindsTo_upsertOne_preserve (tbl : List OrderRow) (r v : OrderRow)
    (hk : okey r ≠ okey v) (h : bindsTo tbl v) :
    bindsTo (upsertOne tbl r) v := by
  obtain ⟨hmem, hval⟩ := h
  constructor
  · rw [keys_upsertOne]
    by_cases ha : tbl.any (fun x => okey x = okey r) = true
    · simp [ha, hmem]
    · simp [ha, List.mem_append, hmem]
  · intro x hx hxe
    unfold upsertOne at hx
    by_cases ha : tbl.any (fun x => okey x = okey r) = true
    · simp only [ha, if_true, List.mem_map] at hx
      obtain ⟨y, hy, hye⟩ := hx
      by_cases hyk : okey y = okey r
      · rw [← hye] at hxe
        simp [hyk] at hxe
        exact absurd hxe hk
      · rw [← hye] at hxe ⊢
        simp only [hyk, if_false] at hxe ⊢
        exact hval y hy hxe
    · simp only [ha, Bool.false_eq_true, if_false, List.mem_append,
        List.mem_singleton] at hx
      cases hx with
      | inl hmem2 => exact hval x hmem2 hxe
      | inr he => rw [he] at hxe; exact absurd hxe hk

/-- A batch of rows with keys all different from an existing binding
preserves that binding. -/
theorem bindsTo_upsertOrders_preserve (rows : List OrderRow) :
    ∀ (tbl : List OrderRow) (v : OrderRow),
      (∀ r ∈ rows, okey r ≠ okey v) → bindsTo tbl v →
      bindsTo (upsertOrders tbl rows) v := by
  induction rows with
  | nil => intro tbl v _ h; exact h
  | cons r rest ih =>
    intro tbl v hk h
    exact ih (upsertOne tbl r) v
      (fun q hq => hk q (List.mem_cons_of_mem r hq))
      (bindsTo_upsertOne_preserve tbl r v (hk r (List.mem_cons_self r rest)) h)

/-- After a batch upsert with pairwise distinct keys, every row of the
batch is bound in the resulting table. -/
theorem bindsTo_upsertOrders_mem (rows : List OrderRow)
    (hnd : (rows.map okey).Nodup) :
    ∀ (tbl : List OrderRow) (r : OrderRow), r ∈ rows →
      bindsTo (upsertOrders tbl rows) r := by
  induction rows with
  | nil => intro tbl r hr; exact absurd hr (List.not_mem_nil r)
  | cons s rest ih =>
    intro tbl r hr
    simp only [List.map_cons, List.nodup_cons] at hnd
    cases List.mem_cons.mp hr with
    | inl he =>
      subst he
      apply bindsTo_upsertOrders_preserve rest (upsertOne tbl r) r
      · intro q hq hqe
        exact hnd.1 (hqe ▸ List.mem_map.mpr ⟨q, hq, rfl⟩)
      · exact bindsTo_upsertOne_self tbl r
    | inr hmem => exact ih hnd.2 (upsertOne tbl s) r hmem

/-- Upserting a row that the table already binds is a no-op. -/
theorem upsertOne_of_bindsTo (tbl : List OrderRow) (r : OrderRow)
    (h : bindsTo tbl r) : upsertOne tbl r = tbl := by
  obtain ⟨hmem, hval⟩ := h
  unfold upsertOne
  rw [if_pos ((any_okey_iff tbl r).mpr hmem)]
  have : ∀ x ∈ tbl, (if okey x = okey r then r else x) = x := by
    intro x hx
    by_cases hxk : okey x = okey r
    · simp [hxk, hval x hx hxk]
    · simp [hxk]
  calc tbl.map (fun x => if okey x = okey r then r else x)
      = tbl.map id := List.map_congr_left this
    _ = tbl := List.map_id tbl

/-- A batch whose rows are all already bound leaves the table unchanged. -/
theorem upsertOrders_absorb (rows : List OrderRow) :
    ∀ tbl : List OrderRow, (∀ r ∈ rows, bindsTo tbl r) →
      upsertOrders tbl rows = tbl := by
  induction rows with
  | nil => intro tbl _; rfl
  | cons s rest ih =>
    intro tbl h
    have hs : upsertOne tbl s = tbl :=
      upsertOne_of_bindsTo tbl s (h s (List.mem_cons_self s rest))
    show upsertOrders (upsertOne tbl s) rest = tbl
    rw [hs]
    exact ih tbl (fun r hr => h r (List.mem_cons_of_mem s hr))

/-- Applying the same batch twice is the same as applying it once. -/
theorem upsertOrders_idem (tbl rows : List OrderRow)
    (hnd : (rows.map okey).Nodup) :
    upsertOrders (upsertOrders tbl rows) rows = upsertOrders tbl rows :=
  upsertOrders_absorb rows (upsertOrders tbl rows)
    (fun r hr => bindsTo_upsertOrders_mem rows hnd tbl r hr)

/-- C1: for a page of external records with distinct provider ids, running
the mapped batch through the upsert step twice, keyed on
(connection id, external order id), yields exactly the same persisted rows
as running it once, and the resulting table never holds two rows of one
connection sharing an external order id. -/
theorem C1_upsert_idempotent_and_unique (connectionId : Nat)
    (page : List ShopifyOrder) (tbl : List OrderRow)
    (hpage : (page.map (fun o => toString o.id)).Nodup)
    (htbl : (tbl.map okey).Nodup) :
    upsertOrders (upsertOrders tbl (page.map (mapOrder connectionId)))
        (page.map (mapOrder connectionId)) =
      upsertOrders tbl (page.map (mapOrder connectionId)) ∧
    List.Pairwise
      (fun a b : OrderRow =>
        a.connection_id = b.connection_id → a.order_id ≠ b.order_id)
      (upsertOrders tbl (page.map (mapOrder connectionId))) := by
  have hkeys : ((page.map (mapOrder connectionId)).map okey).Nodup := by
    rw [List.map_map]
    have : (okey ∘ mapOrder connectionId) =
        (fun s => ((connectionId, s) : Nat × String)) ∘
          (fun o => toString o.id) := by
      funext o; rfl
    rw [this, ← List.map_map]
    exact hpage.map (fun a b hab => (Prod.mk.injEq _ _ _ _).mp hab |>.2)
  constructor
  · exact upsertOrders_idem tbl (page.map (mapOrder connectionId)) hkeys
  · have hres := nodup_keys_upsertOrders (page.map (mapOrder connectionId))
      tbl htbl
    have hp : List.Pairwise (fun a b : OrderRow => okey a ≠ okey b)
        (upsertOrders tbl (page.map (mapOrder connectionId))) :=
      List.pairwise_map.mp hres
    exact hp.imp (fun hab hconn hoid =>
      hab (by unfold okey; rw [hconn, hoid]))

/-- Witness for C1 at a concrete page and table. -/
theorem C1_upsert_idempotent_and_unique_witness :
    upsertOrders (upsertOrders [mapOrder 2 oFull]
        ([oBare, oFull].map (mapOrder 1)))
        ([oBare, oFull].map (mapOrder 1)) =
      upsertOrders [mapOrder 2 oFull] ([oBare, oFull].map (mapOrder 1)) ∧
    List.Pairwise
      (fun a b : OrderRow =>
        a.connection_id = b.connection_id → a.order_id ≠ b.order_id)
      (upsertOrders [mapOrder 2 oFull] ([oBare, oFull].map (mapOrder 1))) :=
  C1_upsert_idempotent_and_unique 1 [oBare, oFull] [mapOrder 2 oFull]
    (by decide) (by decide)

/-- Behaviour of one fresh invocation on a successful fetch: the response
reports the page count, the continuation and the created log id; the page
is upserted; the created log row carries the page count, the in_progress or
success status according to the continuation, and the saved cursor; and a
continuing invocation leaves the connections table untouched. -/
theorem fresh_ok_spec (db : DB) (t : Nat) (userId : String) (mode : Mode)
    (conn : Conn) (p : List ShopifyOrder) (nc : Option String)
    (hc : findActiveConn db userId = some conn)
    (hfresh : ∀ l ∈ db.sync_logs, l.id ≠ db.next_log_id) :
    (syncOrders db t userId mode none none (.ok p nc) none).2.2 =
      .success p.length nc (some db.next_log_id) ∧
    (syncOrders db t userId mode none none (.ok p nc) none).1.orders =
      upsertOrders db.orders (p.map (mapOrder conn.id)) ∧
    logFind (syncOrders db t userId mode none none (.ok p nc) none).1
      db.next_log_id = some
        { id := db.next_log_id, connection_id := conn.id
          sync_type := "orders:" ++ modeStr mode
          status := if nc.isSome then "in_progress" else "success"
          items_processed := p.length
          error_message := none, started_at := some t
          completed_at := if nc.isSome then none else some (t + 1)
          cursor_state := nc, created_by := some userId } ∧
    (nc.isSome = true →
      (syncOrders db t userId mode none none (.ok p nc) none).1.connections =
        db.connections) := by
  refine ⟨?_, ?_, ?_, ?_⟩
  · simp only [syncOrders, hc]
    simp only [Option.isNone_none, Bool.and_self, if_true,
      Option.isSome_none, Bool.and_false, Bool.false_eq_true, if_false]
    rw [count_collapse]
  · simp only [syncOrders, hc]
    simp only [Option.isNone_none, Bool.and_self, if_true,
      Option.isSome_none, Bool.and_false, Bool.false_eq_true, if_false]
    simp only [apply_ite DB.orders, updateConns, updateLogs, ite_self]
    rw [upsert_collapse]
  · simp only [syncOrders, hc]
    simp only [Option.isNone_none, Bool.and_self, if_true,
      Option.isSome_none, Bool.and_false, Bool.false_eq_true, if_false]
    simp only [logFind, updateConns, updateLogs, apply_ite DB.sync_logs,
      ite_self]
    rw [logFind_append_fresh db.sync_logs _ db.next_log_id rfl hfresh]
    refine Eq.trans
      (logFind_fresh_updated db.sync_logs _ _ db.next_log_id rfl hfresh ?_) ?_
    · intro l; rfl
    · rw [count_collapse]
      simp only [Option.map_some', Option.getD_some, Nat.zero_add]
  · intro h
    simp only [syncOrders, hc]
    simp only [Option.isNone_none, Bool.and_self, if_true,
      Option.isSome_none, Bool.and_false, Bool.false_eq_true, if_false, h]
    simp only [updateLogs, apply_ite DB.connections, ite_self]

/-- Behaviour of one resumed invocation (cursor and log id echoed back) on
a successful fetch: the response reports the page count, continuation and
the same log id; the page is upserted; the tracked log row accumulates the
page count on top of its stored counter and moves to in_progress or success
according to the continuation; a continuing invocation leaves the
connections table untouched. -/
theorem resumed_ok_spec (db : DB) (t : Nat) (userId : String) (mode : Mode)
    (conn : Conn) (c : String) (L : Nat) (l0 : SyncLog)
    (p : List ShopifyOrder) (nc : Option String)
    (hc : findActiveConn db userId = some conn)
    (hlog : logFind db L = some l0) :
    (syncOrders db t userId mode (some c) (some L) (.ok p nc) none).2.2 =
      .success p.length nc (some L) ∧
    (syncOrders db t userId mode (some c) (some L) (.ok p nc) none).1.orders =
      upsertOrders db.orders (p.map (mapOrder conn.id)) ∧
    logFind (syncOrders db t userId mode (some c) (some L)
        (.ok p nc) none).1 L = some
      { l0 with
          items_processed := l0.items_processed + p.length
          status := if nc.isSome then "in_progress" else "success"
          completed_at := if nc.isSome then none else some t
          cursor_state := nc } ∧
    (nc.isSome = true →
      (syncOrders db t userId mode (some c) (some L)
        (.ok p nc) none).1.connections = db.connections) := by
  have hlog' : db.sync_logs.find? (fun l => l.id = L) = some l0 := hlog
  refine ⟨?_, ?_, ?_, ?_⟩
  · simp only [syncOrders, hc]
    simp only [Option.isNone_some, Bool.false_and, Bool.and_false,
      Bool.false_eq_true, if_false, Option.isSome_none]
    rw [count_collapse]
  · simp only [syncOrders, hc]
    simp only [Option.isNone_some, Bool.false_and, Bool.and_false,
      Bool.false_eq_true, if_false, Option.isSome_none]
    simp only [apply_ite DB.orders, updateConns, updateLogs, ite_self]
    rw [upsert_collapse]
  · simp only [syncOrders, hc]
    simp only [Option.isNone_some, Bool.false_and, Bool.and_false,
      Bool.false_eq_true, if_false, Option.isSome_none]
    simp only [logFind, updateConns, updateLogs, apply_ite DB.sync_logs,
      ite_self]
    rw [hlog']
    refine Eq.trans (logFind_update db.sync_logs L _ ?_) ?_
    · intro l; rfl
    · rw [hlog', count_collapse]
      simp only [Option.map_some', Option.getD_some]
  · intro h
    simp only [syncOrders, hc]
    simp only [Option.isNone_some, Bool.false_and, Bool.and_false,
      Bool.false_eq_true, if_false, Option.isSome_none, h, if_true]
    simp only [updateLogs, apply_ite DB.connections, ite_self]

/-- C2: splitting one dataset into two pages and processing them through
two sequential invocations — the second passed the first invocation's
returned continuation cursor and log id — produces the same final persisted
Order rows and the same final items-processed count as processing the whole
dataset as one page in a single invocation. -/
theorem C2_split_run_equivalence (db : DB) (t0 t1 : Nat) (userId : String)
    (mode : Mode) (conn : Conn) (c : String) (p1 p2 : List ShopifyOrder)
    (first second single : DB × Nat × SyncResp)
    (hc : findActiveConn db userId = some conn)
    (hfresh : ∀ l ∈ db.sync_logs, l.id ≠ db.next_log_id)
    (hfirst : first =
      syncOrders db t0 userId mode none none (.ok p1 (some c)) none)
    (hsecond : second = syncOrders first.1 t1 userId mode (some c)
      (some db.next_log_id) (.ok p2 none) none)
    (hsingle : single =
      syncOrders db t0 userId mode none none (.ok (p1 ++ p2) none) none) :
    first.2.2 = .success p1.length (some c) (some db.next_log_id) ∧
    second.1.orders = single.1.orders ∧
    (logFind second.1 db.next_log_id).map SyncLog.items_processed =
      (logFind single.1 db.next_log_id).map SyncLog.items_processed ∧
    (logFind single.1 db.next_log_id).map SyncLog.items_processed =
      some (p1.length + p2.length) := by
  subst hfirst
  subst hsecond
  subst hsingle
  have hF := fresh_ok_spec db t0 userId mode conn p1 (some c) hc hfresh
  have hS := fresh_ok_spec db t0 userId mode conn (p1 ++ p2) none hc hfresh
  have hconn2 : findActiveConn
      (syncOrders db t0 userId mode none none (.ok p1 (some c)) none).1
      userId = some conn := by
    have hcc := hF.2.2.2 rfl
    simp only [findActiveConn] at hc ⊢
    rw [hcc]
    exact hc
  have hR := resumed_ok_spec _ t1 userId mode conn c db.next_log_id _ p2
    none hconn2 hF.2.2.1
  refine ⟨hF.1, ?_, ?_, ?_⟩
  · rw [hR.2.1, hF.2.1, hS.2.1, List.map_append]
    simp [upsertOrders, List.foldl_append]
  · rw [hR.2.2.1, hS.2.2.1]
    simp [List.length_append]
  · rw [hS.2.2.1]
    simp [List.length_append]

/-- Witness for C2 at a concrete store and a concrete two-page split. -/
theorem C2_split_run_equivalence_witness :
    (syncOrders dbW 0 "u1" .manual none none
      (.ok [oBare] (some "pg")) none).2.2 =
      .success 1 (some "pg") (some 10) ∧
    (syncOrders (syncOrders dbW 0 "u1" .manual none none
        (.ok [oBare] (some "pg")) none).1 7 "u1" .manual (some "pg")
        (some 10) (.ok [oFull] none) none).1.orders =
      (syncOrders dbW 0 "u1" .manual none none
        (.ok ([oBare] ++ [oFull]) none) none).1.orders ∧
    (logFind (syncOrders (syncOrders dbW 0 "u1" .manual none none
        (.ok [oBare] (some "pg")) none).1 7 "u1" .manual (some "pg")
        (some 10) (.ok [oFull] none) none).1 10).map
        SyncLog.items_processed =
      (logFind (syncOrders dbW 0 "u1" .manual none none
        (.ok ([oBare] ++ [oFull]) none) none).1 10).map
        SyncLog.items_processed ∧
    (logFind (syncOrders dbW 0 "u1" .manual none none
        (.ok ([oBare] ++ [oFull]) none) none).1 10).map
        SyncLog.items_processed = some (1 + 1) :=
  C2_split_run_equivalence dbW 0 7 "u1" .manual connW "pg" [oBare] [oFull]
    _ _ _ (by decide) (by intro l hl; simp [dbW] at hl) rfl rfl rfl

/-- C8 (amended): disconnecting a connection flips its active flag to
false and deletes every dependent Order and SyncLogEntry row for that
connection, then records the cleanup as exactly one new terminal
SyncLogEntry; dependent Product rows are NOT deleted — a connection owning
5 orders, 2 products and 3 log entries ends with 0 orders, the single
cleanup log entry, and its 2 product rows still present. -/
theorem C8_cleanup_behaviour (db : DB) (userId : String) (t : Nat)
    (conn : Conn) (hc : findActiveConn db userId = some conn)
    (huniq : db.connections.filter (fun c => c.id = conn.id) = [conn]) :
    (deleteUserConnection db userId t).2.success = true ∧
    (deleteUserConnection db userId t).1.orders.filter
      (fun o => o.connection_id = conn.id) = [] ∧
    (deleteUserConnection db userId t).1.products = db.products ∧
    (deleteUserConnection db userId t).1.sync_logs.filter
      (fun l => l.connection_id = conn.id) =
      [{ id := db.next_log_id, connection_id := conn.id
         sync_type := "cleanup", status := "success", items_processed := 0
         error_message := some "User connection deactivated - data cleaned up"
         started_at := some t, completed_at := some t, cursor_state := none
         created_by := some conn.user_id }] ∧
    (∀ x ∈ (deleteUserConnection db userId t).1.connections,
      x.id = conn.id → x.is_active = false) := by
  have hpred := List.find?_some hc
  have hact : conn.is_active = true := by
    simp only [Bool.and_eq_true, decide_eq_true_eq] at hpred
    exact hpred.2
  have hstep : deleteUserConnection db userId t =
      (setInactiveWithTrigger
        { db with
            orders := db.orders.filter (fun o => o.connection_id ≠ conn.id)
            sync_logs :=
              db.sync_logs.filter (fun l => l.connection_id ≠ conn.id) }
        conn.id t,
       { success := true, errText := none }) := by
    simp only [deleteUserConnection, hc]
  rw [hstep]
  have haff : ({ db with
      orders := db.orders.filter (fun o => o.connection_id ≠ conn.id)
      sync_logs := db.sync_logs.filter (fun l => l.connection_id ≠ conn.id)
      } : DB).connections.filter (fun c => c.id = conn.id) = [conn] := huniq
  simp only [setInactiveWithTrigger, haff, List.foldl_cons, List.foldl_nil]
  simp only [cleanupTrigger, hact, Bool.not_false, Bool.and_self, if_true]
  refine ⟨trivial, ?_, by simp [updateConns], ?_, ?_⟩
  · simp only [updateConns]
    rw [List.filter_eq_nil_iff]
    intro o ho
    have := (List.mem_filter.mp ho).2
    simpa using this
  · simp only [updateConns]
    rw [List.filter_append]
    have h1 : ((db.sync_logs.filter
        (fun l => l.connection_id ≠ conn.id)).filter
        (fun l => l.connection_id ≠ conn.id)).filter
        (fun l => l.connection_id = conn.id) = [] := by
      rw [List.filter_eq_nil_iff]
      intro l hl
      have := (List.mem_filter.mp hl).2
      simpa using this
    rw [h1]
    simp
  · intro x hx hxid
    simp only [updateConns, List.mem_map] at hx
    obtain ⟨y, _, hy⟩ := hx
    by_cases hyid : y.id = conn.id
    · rw [← hy]
      simp [hyid]
    · rw [← hy] at hxid
      simp only [hyid, if_false] at hxid

/-- Witness for the amended C8 at the concrete 5-orders, 2-products,
3-logs store. -/
theorem C8_cleanup_behaviour_witness :
    (deleteUserConnection dbCleanup "u1" 99).2.success = true ∧
    (deleteUserConnection dbCleanup "u1" 99).1.orders.filter
      (fun o => o.connection_id = connW.id) = [] ∧
    (deleteUserConnection dbCleanup "u1" 99).1.products =
      dbCleanup.products := by
  have h := C8_cleanup_behaviour dbCleanup "u1" 99 connW (by decide)
    (by decide)
  exact ⟨h.1, h.2.1, h.2.2.1⟩

/-- Counterexample to C8 as stated: deactivating the connection that owns
5 orders, 2 products and 3 log entries leaves its 2 Product rows in place
(the claim requires 0), while orders are gone and the only remaining log
row for the connection is the cleanup entry. -/
theorem C8_counterexample :
    ((deleteUserConnection dbCleanup "u1" 99).1.products.filter
      (fun p => p.connection_id = 1)).length = 2 ∧
    ((deleteUserConnection dbCleanup "u1" 99).1.products.filter
      (fun p => p.connection_id = 1)).length ≠ 0 ∧
    ((deleteUserConnection dbCleanup "u1" 99).1.orders.filter
      (fun o => o.connection_id = 1)).length = 0 ∧
    ((deleteUserConnection dbCleanup "u1" 99).1.sync_logs.filter
      (fun l => l.connection_id = 1)).map SyncLog.sync_type =
      ["cleanup"] := by
  refine ⟨by decide, by decide, by decide, by decide⟩

/-- C7 (amended): an authorized fleet-wide trigger enumerates the owners of
all active connections (deduplicated, in encounter order) and, for each
owner, invokes the manual-orders trigger exactly once — one page, without
following any returned continuation cursor — then the products trigger
once; the per-owner results are each a function of only that owner's call
outcomes, so one owner's failure does not abort the other owners' syncs. -/
theorem C7_cron_behaviour (envSecret : String) (req : CronReq)
    (connections : List Conn) (oracle : CallKind → String → CallOutcome)
    (hpost : req.methodIsPost = true)
    (hsec : envSecret.isEmpty = false)
    (htok : cronProvidedToken req = envSecret) :
    (cronHandler envSecret req connections oracle).2 =
      (jsUniq ((connections.filter Conn.is_active).map Conn.user_id)).flatMap
        (fun u => [{ user := u, kind := .ordersManual },
                   { user := u, kind := .products }]) ∧
    statusesOf (cronHandler envSecret req connections oracle).1 =
      (jsUniq ((connections.filter Conn.is_active).map Conn.user_id)).map
        (cronUserStep oracle) ∧
    ∀ (v : String) (oracle2 : CallKind → String → CallOutcome),
      (∀ k, oracle2 k v = oracle k v) →
      (statusesOf (cronHandler envSecret req connections oracle2).1).find?
          (fun r => r.user = v) =
        (statusesOf (cronHandler envSecret req connections oracle).1).find?
          (fun r => r.user = v) := by
  have hred : ∀ g : CallKind → String → CallOutcome,
      cronHandler envSecret req connections g =
        (.ok (jsUniq ((connections.filter Conn.is_active).map
            Conn.user_id)).length
          (((jsUniq ((connections.filter Conn.is_active).map
              Conn.user_id)).map (cronUserStep g)).map (fun r =>
                if r.orders_ok then r.orders_items else 0)).sum
          (((jsUniq ((connections.filter Conn.is_active).map
              Conn.user_id)).map (cronUserStep g)).map (fun r =>
                if r.products_ok then r.products_items else 0)).sum
          ((jsUniq ((connections.filter Conn.is_active).map
            Conn.user_id)).map (cronUserStep g)),
         (jsUniq ((connections.filter Conn.is_active).map
            Conn.user_id)).flatMap (fun u =>
              [{ user := u, kind := .ordersManual },
               { user := u, kind := .products }])) := by
    intro g
    simp [cronHandler, hpost, hsec, htok]
  refine ⟨by rw [hred], by rw [hred]; rfl, ?_⟩
  intro v oracle2 hagree
  rw [hred, hred]
  simp only [statusesOf]
  induction jsUniq ((connections.filter Conn.is_active).map Conn.user_id) with
  | nil => rfl
  | cons u us ih =>
    by_cases hu : u = v
    · subst hu
      have hstep : cronUserStep oracle2 u = cronUserStep oracle u := by
        simp [cronUserStep, hagree CallKind.ordersManual,
          hagree CallKind.products]
      have hd : (decide ((cronUserStep oracle u).user = u)) = true := by
        simp [cronUserStep]
      simp only [List.map_cons, List.find?_cons, hstep, hd]
    · simp only [List.map_cons, List.find?_cons]
      have hu1 : (decide ((cronUserStep oracle2 u).user = v)) = false := by
        simp [cronUserStep, hu]
      have hu2 : (decide ((cronUserStep oracle u).user = v)) = false := by
        simp [cronUserStep, hu]
      rw [hu1, hu2]
      exact ih

/-- Witness for the amended C7 at a concrete secret, request, connection
list and downstream oracle. -/
theorem C7_cron_behaviour_witness :
    (cronHandler "s" cronReqW [connW] oracleW).2 =
      (jsUniq (([connW].filter Conn.is_active).map Conn.user_id)).flatMap
        (fun u => [{ user := u, kind := .ordersManual },
                   { user := u, kind := .products }]) ∧
    statusesOf (cronHandler "s" cronReqW [connW] oracleW).1 =
      (jsUniq (([connW].filter Conn.is_active).map Conn.user_id)).map
        (cronUserStep oracleW) := by
  have h := C7_cron_behaviour "s" cronReqW [connW] oracleW (by decide)
    (by decide) (by decide)
  exact ⟨h.1, h.2.1⟩

/-- Counterexample to C7 as stated: with the downstream orders endpoint
reporting a remaining continuation (has_more true), the trigger still
makes exactly one manual-orders call for the owner — it does not invoke
the manual-orders trigger repeatedly until the continuation is
exhausted. -/
theorem C7_counterexample :
    (cronHandler "s" cronReqW [connW] oracleW).2 =
      [{ user := "u1", kind := .ordersManual },
       { user := "u1", kind := .products }] ∧
    (cronHandler "s" cronReqW [connW] oracleW).2.count
      { user := "u1", kind := CallKind.ordersManual } = 1 ∧
    oracleW .ordersManual "u1" = .resp true true none true := by
  refine ⟨by decide, by decide, by decide⟩

/-- The items-processed observation is invariant under an id-keyed log
update that does not touch the counter. -/
theorem itemsOfLog_update_const (logs : List SyncLog) (i : Nat)
    (f : SyncLog → SyncLog) (hfid : ∀ l, (f l).id = l.id)
    (hfit : ∀ l, (f l).items_processed = l.items_processed) :
    (((logs.map (fun l => if l.id = i then f l else l)).find?
        (fun l => l.id = i)).map SyncLog.items_processed).getD 0 =
      (((logs.find? (fun l => l.id = i)).map
        SyncLog.items_processed).getD 0 : Nat) := by
  rw [logFind_update logs i f hfid]
  cases logs.find? (fun l => l.id = i) with
  | none => rfl
  | some l1 => simp [hfit]

/-- Every state list produced by a resumed run starting from a store whose
tracked log row is present forms a chain under the run relation, and the
head state's counter is at least the stored counter. -/
theorem runSync_resumed_chain (userId : String) (mode : Mode) (L : Nat) :
    ∀ (steps : List (FetchOutcome × Option String)) (db : DB) (t : Nat)
      (c : String) (conn : Conn) (l0 : SyncLog),
      findActiveConn db userId = some conn →
      logFind db L = some l0 →
      List.Chain' (RunRel L)
        (runSync userId mode steps db t (some c) (some L)) ∧
      ∀ s, (runSync userId mode steps db t (some c) (some L)).head? =
        some s → l0.items_processed ≤ itemsAt L s := by
  intro steps
  induction steps with
  | nil =>
    intro db t c conn l0 hconn hlog
    exact ⟨List.chain'_nil, by intro s hs; simp [runSync] at hs⟩
  | cons fe rest ih =>
    obtain ⟨f, ue⟩ := fe
    intro db t c conn l0 hconn hlog
    have hmain : ∀ (p : List ShopifyOrder) (nc : Option String),
        List.Chain' (RunRel L)
          (runSync userId mode ((.ok p nc, none) :: rest) db t
            (some c) (some L)) ∧
        ∀ s, (runSync userId mode ((.ok p nc, none) :: rest) db t
          (some c) (some L)).head? = some s →
          l0.items_processed ≤ itemsAt L s := by
      intro p nc
      have hspec := resumed_ok_spec db t userId mode conn c L l0 p nc
        hconn hlog
      have hit : itemsAt L (syncOrders db t userId mode (some c) (some L)
          (.ok p nc) none) = l0.items_processed + p.length := by
        simp [itemsAt, itemsOfLog, hspec.2.2.1]
      cases nc with
      | none =>
        have hl : runSync userId mode ((FetchOutcome.ok p none, none) :: rest)
            db t (some c) (some L) =
            [syncOrders db t userId mode (some c) (some L)
              (.ok p none) none] := by
          simp only [runSync]
          rw [hspec.1]
          rfl
        rw [hl]
        refine ⟨List.chain'_singleton _, ?_⟩
        intro s hs
        simp only [List.head?_cons, Option.some.injEq] at hs
        subst hs
        rw [hit]
        exact Nat.le_add_right _ _
      | some c2 =>
        have hconn2 : findActiveConn (syncOrders db t userId mode (some c)
            (some L) (.ok p (some c2)) none).1 userId = some conn := by
          have hcc := hspec.2.2.2 rfl
          simp only [findActiveConn] at hconn ⊢
          rw [hcc]
          exact hconn
        have hlog2 := hspec.2.2.1
        have ihh := ih (syncOrders db t userId mode (some c) (some L)
            (.ok p (some c2)) none).1
          (syncOrders db t userId mode (some c) (some L)
            (.ok p (some c2)) none).2.1 c2 conn _ hconn2 hlog2
        have hl : runSync userId mode
            ((FetchOutcome.ok p (some c2), none) :: rest) db t
            (some c) (some L) =
            (syncOrders db t userId mode (some c) (some L)
              (.ok p (some c2)) none) ::
            runSync userId mode rest
              (syncOrders db t userId mode (some c) (some L)
                (.ok p (some c2)) none).1
              (syncOrders db t userId mode (some c) (some L)
                (.ok p (some c2)) none).2.1 (some c2) (some L) := by
          simp only [runSync]
          rw [hspec.1]
          rfl
        rw [hl]
        constructor
        · refine List.chain'_cons'.mpr ⟨?_, ihh.1⟩
          intro y hy
          constructor
          · rw [hit]
            exact ihh.2 y hy
          · intro hne
            exfalso
            apply hne
            simp [statusAt, hlog2]
        · intro s hs
          simp only [List.head?_cons, Option.some.injEq] at hs
          subst hs
          rw [hit]
          exact Nat.le_add_right _ _
    cases f with
    | ok p nc =>
      cases ue with
      | none => exact hmain p nc
      | some m =>
        cases p with
        | nil =>
          have hlist : runSync userId mode
              ((FetchOutcome.ok [] nc, some m) :: rest) db t
              (some c) (some L) =
              runSync userId mode ((FetchOutcome.ok [] nc, none) :: rest)
                db t (some c) (some L) := rfl
          rw [hlist]
          exact hmain [] nc
        | cons a l =>
          have hresp : (syncOrders db t userId mode (some c) (some L)
              (.ok (a :: l) nc) (some m)).2.2 =
              .error 500 ("DB Upsert failed: " ++ m) := by
            simp [syncOrders, hconn]
          have hrun : runSync userId mode
              ((FetchOutcome.ok (a :: l) nc, some m) :: rest) db t
              (some c) (some L) =
              [syncOrders db t userId mode (some c) (some L)
                (.ok (a :: l) nc) (some m)] := by
            simp only [runSync]
            rw [hresp]
          rw [hrun]
          refine ⟨List.chain'_singleton _, ?_⟩
          intro s hs
          simp only [List.head?_cons, Option.some.injEq] at hs
          subst hs
          have hit : itemsAt L (syncOrders db t userId mode (some c)
              (some L) (.ok (a :: l) nc) (some m)) =
              l0.items_processed := by
            simp only [syncOrders, hconn, itemsAt, itemsOfLog, logFind,
              updateLogs]
            simp only [Option.isNone_some, Bool.false_and, Bool.and_false,
              Bool.false_eq_true, if_false, List.isEmpty_cons,
              Bool.not_false, Option.isSome_some, Bool.and_self, if_true]
            refine Eq.trans
              (itemsOfLog_update_const db.sync_logs L _ ?_ ?_) ?_
            · intro l1; rfl
            · intro l1; rfl
            · have hlog' : db.sync_logs.find? (fun l => l.id = L) =
                some l0 := hlog
              rw [hlog']
              rfl
          rw [hit]
    | rateLimited =>
      have hresp : (syncOrders db t userId mode (some c) (some L)
          .rateLimited ue).2.2 =
          .error 429 "Shopify API rate limit exceeded. Retry later." := by
        simp [syncOrders, hconn]
      have hrun : runSync userId mode
          ((FetchOutcome.rateLimited, ue) :: rest) db t
          (some c) (some L) =
          [syncOrders db t userId mode (some c) (some L)
            .rateLimited ue] := by
        simp only [runSync]
        rw [hresp]
      rw [hrun]
      refine ⟨List.chain'_singleton _, ?_⟩
      intro s hs
      simp only [List.head?_cons, Option.some.injEq] at hs
      subst hs
      have hit : itemsAt L (syncOrders db t userId mode (some c) (some L)
          .rateLimited ue) = l0.items_processed := by
        simp [syncOrders, hconn, itemsAt, itemsOfLog, hlog]
      rw [hit]
    | httpError st body =>
      have hresp : (syncOrders db t userId mode (some c) (some L)
          (.httpError st body) ue).2.2 =
          .error 500 ("Shopify API error " ++ toString st ++ ": " ++
            body) := by
        simp [syncOrders, hconn]
      have hrun : runSync userId mode
          ((FetchOutcome.httpError st body, ue) :: rest) db t
          (some c) (some L) =
          [syncOrders db t userId mode (some c) (some L)
            (.httpError st body) ue] := by
        simp only [runSync]
        rw [hresp]
      rw [hrun]
      refine ⟨List.chain'_singleton _, ?_⟩
      intro s hs
      simp only [List.head?_cons, Option.some.injEq] at hs
      subst hs
      have hit : itemsAt L (syncOrders db t userId mode (some c) (some L)
          (.httpError st body) ue) = l0.items_processed := by
        simp [syncOrders, hconn, itemsAt, itemsOfLog, hlog]
      rw [hit]

/-- C4: across the successive page invocations of one run (fresh start,
then each invocation fed the previous one's returned cursor and log id,
stopping on completion or error), the run's SyncLogEntry never transitions
from success or error back to in_progress, and its items-processed count is
non-decreasing. -/
theorem C4_monotonic_log_state (db : DB) (t : Nat) (userId : String)
    (mode : Mode) (conn : Conn)
    (steps : List (FetchOutcome × Option String))
    (hc : findActiveConn db userId = some conn)
    (hfresh : ∀ l ∈ db.sync_logs, l.id ≠ db.next_log_id) :
    List.Pairwise (fun s1 s2 : DB × Nat × SyncResp =>
      itemsAt db.next_log_id s1 ≤ itemsAt db.next_log_id s2 ∧
      ((statusAt db.next_log_id s1 = "success" ∨
        statusAt db.next_log_id s1 = "error") →
        statusAt db.next_log_id s2 ≠ "in_progress"))
      (runSync userId mode steps db t none none) := by
  have hchain : List.Chain' (RunRel db.next_log_id)
      (runSync userId mode steps db t none none) := by
    cases steps with
    | nil => exact List.chain'_nil
    | cons fe rest =>
      obtain ⟨f, ue⟩ := fe
      have hfmain : ∀ (p : List ShopifyOrder) (nc : Option String),
          List.Chain' (RunRel db.next_log_id)
            (runSync userId mode ((.ok p nc, none) :: rest) db t
              none none) := by
        intro p nc
        have hspec := fresh_ok_spec db t userId mode conn p nc hc hfresh
        cases nc with
        | none =>
          have hl : runSync userId mode
              ((FetchOutcome.ok p none, none) :: rest) db t none none =
              [syncOrders db t userId mode none none (.ok p none) none] := by
            simp only [runSync]
            rw [hspec.1]
            rfl
          rw [hl]
          exact List.chain'_singleton _
        | some c2 =>
          have hconn2 : findActiveConn (syncOrders db t userId mode none
              none (.ok p (some c2)) none).1 userId = some conn := by
            have hcc := hspec.2.2.2 rfl
            simp only [findActiveConn] at hc ⊢
            rw [hcc]
            exact hc
          have hlog2 := hspec.2.2.1
          have ihh := runSync_resumed_chain userId mode db.next_log_id rest
            (syncOrders db t userId mode none none
              (.ok p (some c2)) none).1
            (syncOrders db t userId mode none none
              (.ok p (some c2)) none).2.1 c2 conn _ hconn2 hlog2
          have hl : runSync userId mode
              ((FetchOutcome.ok p (some c2), none) :: rest) db t
              none none =
              (syncOrders db t userId mode none none
                (.ok p (some c2)) none) ::
              runSync userId mode rest
                (syncOrders db t userId mode none none
                  (.ok p (some c2)) none).1
                (syncOrders db t userId mode none none
                  (.ok p (some c2)) none).2.1 (some c2)
                (some db.next_log_id) := by
            simp only [runSync]
            rw [hspec.1]
            rfl
          rw [hl]
          refine List.chain'_cons'.mpr ⟨?_, ihh.1⟩
          intro y hy
          constructor
          · have hit : itemsAt db.next_log_id (syncOrders db t userId mode
                none none (.ok p (some c2)) none) = p.length := by
              simp [itemsAt, itemsOfLog, hlog2]
            rw [hit]
            exact ihh.2 y hy
          · intro hne
            exfalso
            apply hne
            simp [statusAt, hlog2]
      cases f with
      | ok p nc =>
        cases ue with
        | none => exact hfmain p nc
        | some m =>
          cases p with
          | nil =>
            have hlist : runSync userId mode
                ((FetchOutcome.ok [] nc, some m) :: rest) db t none none =
                runSync userId mode ((FetchOutcome.ok [] nc, none) :: rest)
                  db t none none := rfl
            rw [hlist]
            exact hfmain [] nc
          | cons a l =>
            have hresp : (syncOrders db t userId mode none none
                (.ok (a :: l) nc) (some m)).2.2 =
                .error 500 ("DB Upsert failed: " ++ m) := by
              simp [syncOrders, hc]
            have hrun : runSync userId mode
                ((FetchOutcome.ok (a :: l) nc, some m) :: rest) db t
                none none =
                [syncOrders db t userId mode none none
                  (.ok (a :: l) nc) (some m)] := by
              simp only [runSync]
              rw [hresp]
            rw [hrun]
            exact List.chain'_singleton _
      | rateLimited =>
        have hresp : (syncOrders db t userId mode none none
            .rateLimited ue).2.2 =
            .error 429 "Shopify API rate limit exceeded. Retry later." := by
          simp [syncOrders, hc]
        have hrun : runSync userId mode
            ((FetchOutcome.rateLimited, ue) :: rest) db t none none =
            [syncOrders db t userId mode none none .rateLimited ue] := by
          simp only [runSync]
          rw [hresp]
        rw [hrun]
        exact List.chain'_singleton _
      | httpError st body =>
        have hresp : (syncOrders db t userId mode none none
            (.httpError st body) ue).2.2 =
            .error 500 ("Shopify API error " ++ toString st ++ ": " ++
              body) := by
          simp [syncOrders, hc]
        have hrun : runSync userId mode
            ((FetchOutcome.httpError st body, ue) :: rest) db t none none =
            [syncOrders db t userId mode none none
              (.httpError st body) ue] := by
          simp only [runSync]
          rw [hresp]
        rw [hrun]
        exact List.chain'_singleton _
  have hpair := List.chain'_iff_pairwise.mp hchain
  refine hpair.imp ?_
  intro a b hR
  refine ⟨hR.1, ?_⟩
  intro hterm
  apply hR.2
  cases hterm with
  | inl h => rw [h]; decide
  | inr h => rw [h]; decide

/-- Witness for C4 on a concrete three-page run whose final page suffers an
upsert failure. -/
theorem C4_monotonic_log_state_witness :
    List.Pairwise (fun s1 s2 : DB × Nat × SyncResp =>
      itemsAt dbW.next_log_id s1 ≤ itemsAt dbW.next_log_id s2 ∧
      ((statusAt dbW.next_log_id s1 = "success" ∨
        statusAt dbW.next_log_id s1 = "error") →
        statusAt dbW.next_log_id s2 ≠ "in_progress"))
      (runSync "u1" .manual
        [(.ok [oBare] (some "c1"), none), (.ok [oNested] (some "c2"), none),
         (.ok [oFull] none, some "boom")] dbW 0 none none) :=
  C4_monotonic_log_state dbW 0 "u1" .manual connW
    [(.ok [oBare] (some "c1"), none), (.ok [oNested] (some "c2"), none),
     (.ok [oFull] none, some "boom")]
    (by decide) (by intro l hl; simp [dbW] at hl)

/-- C9: the row mapping applied before upsert satisfies the defaulting
rules: canonical id is the provider id cast to a string; monetary total
defaults to 0 when absent; currency defaults to USD when absent; customer
email falls back to the nested customer email when the top-level field is
absent (and stays null when neither is present); fulfillment status
defaults to unfulfilled when absent; line items default to the empty
sequence when the field is absent or not a sequence. -/
theorem C9_mapping_rules (connectionId : Nat) (o : ShopifyOrder) :
    (mapOrder connectionId o).order_id = toString o.id ∧
    (o.total_price = none → (mapOrder connectionId o).total_price = some 0) ∧
    (o.currency = none → (mapOrder connectionId o).currency = "USD") ∧
    (o.email = none → ∀ c e, o.customer = some c → c.email = some e →
      e ≠ "" → (mapOrder connectionId o).customer_email = some e) ∧
    (o.email = none → o.customer.bind Customer.email = none →
      (mapOrder connectionId o).customer_email = none) ∧
    (o.fulfillment_status = none →
      (mapOrder connectionId o).fulfillment_status = "unfulfilled") ∧
    (o.line_items = .notArr → (mapOrder connectionId o).line_items = []) := by
  refine ⟨rfl, ?_, ?_, ?_, ?_, ?_, ?_⟩
  · intro h; simp [mapOrder, jsTruthy, h]
  · intro h; simp [mapOrder, jsTruthy, h]
  · intro h c e hc hce hne
    have hbind : o.customer.bind Customer.email = some e := by
      simp [hc, hce]
    have hemp : e.isEmpty = false := by
      cases he : e.isEmpty
      · rfl
      · exact absurd ((String.isEmpty_iff e).mp he) hne
    simp [mapOrder, jsTruthy, h, hbind, hemp]
  · intro h hb; simp [mapOrder, jsTruthy, h, hb]
  · intro h; simp [mapOrder, jsTruthy, h]
  · intro h; simp [mapOrder, h]

/-- Witness for C9 at concrete records. -/
theorem C9_mapping_rules_witness :
    (mapOrder 7 oFull).order_id = "1003" ∧
    (mapOrder 7 oBare).total_price = some 0 ∧
    (mapOrder 7 oBare).currency = "USD" ∧
    (mapOrder 7 oNested).customer_email = some "x@y.z" ∧
    (mapOrder 7 oBare).customer_email = none ∧
    (mapOrder 7 oBare).fulfillment_status = "unfulfilled" ∧
    (mapOrder 7 oBare).line_items = [] := by
  have hf := C9_mapping_rules 7 oFull
  have hb := C9_mapping_rules 7 oBare
  have hn := C9_mapping_rules 7 oNested
  exact ⟨hf.1, hb.2.1 rfl, hb.2.2.1 rfl,
    hn.2.2.2.1 rfl { email := some "x@y.z" } "x@y.z" rfl rfl (by decide),
    hb.2.2.2.2.1 rfl rfl, hb.2.2.2.2.2.1 rfl, hb.2.2.2.2.2.2 rfl⟩

/-- C5: a resumed invocation whose external fetch is rate limited returns
the distinct 429 signal and leaves the entire store untouched: no rows of
the failed page are persisted, rows from prior pages are unchanged, and the
sync log keeps its previously saved status and cursor. -/
theorem C5_rate_limit_leaves_store (db : DB) (t : Nat) (userId : String)
    (mode : Mode) (c : String) (lid : Nat) (ue : Option String) (conn : Conn)
    (hc : findActiveConn db userId = some conn) :
    syncOrders db t userId mode (some c) (some lid) .rateLimited ue =
      (db, t, .error 429 "Shopify API rate limit exceeded. Retry later.") := by
  simp [syncOrders, hc]

/-- Witness for C5 at a concrete store. -/
theorem C5_rate_limit_leaves_store_witness :
    syncOrders dbW 5 "u1" .auto (some "cur") (some 3) .rateLimited none =
      (dbW, 5, .error 429 "Shopify API rate limit exceeded. Retry later.") :=
  C5_rate_limit_leaves_store dbW 5 "u1" .auto "cur" 3 none connW (by decide)

/-- C10: when the CRON_SECRET environment variable is unset or empty, every
POST request to the fleet-wide sync endpoint is rejected with HTTP 401, no
matter what token is supplied in body, headers or query, and no downstream
sync is invoked — the shared-secret check fails closed. -/
theorem C10_empty_secret_fails_closed (b1 b2 h1 h2 h3 q : String)
    (connections : List Conn) (oracle : CallKind → String → CallOutcome) :
    cronHandler ""
      { methodIsPost := true, body_CRON_SECRET := b1, body_cron_token := b2
        header_x_cron_token := h1, header_x_cron_secret := h2
        header_cron_secret := h3, query_cron_token := q }
      connections oracle = (.unauthorized, []) := by
  have h0 : "".isEmpty = true := rfl
  simp [cronHandler, h0]

/-- C3 (amended): an auto-mode run with last-sync timestamp T builds its
first page request with updated_at_min = T and ascending updated_at
ordering; when the run completes, the connection's last-sync timestamp is
stamped with the wall clock at the moment of completion of the final page
invocation — strictly later than the run's start, not the run's start time,
and independent of any record's timestamp. -/
theorem C3_auto_filter_and_completion_stamp (db : DB) (t : Nat)
    (userId : String) (conn : Conn) (T : Nat)
    (hc : findActiveConn db userId = some conn)
    (hT : conn.last_sync_at = some T)
    (hfresh : ∀ l ∈ db.sync_logs, l.id ≠ db.next_log_id) :
    buildParams .auto none conn.last_sync_at =
      { limit := 250, page_info := none, status_any := true
        updated_at_min := some T, order_updated_asc := true } ∧
    (∀ orders : List ShopifyOrder,
      lastSyncOf (syncOrders db t userId .auto none none
        (.ok orders none) none).1 conn.id = some (t + 2) ∧
      (logFind (syncOrders db t userId .auto none none
        (.ok orders none) none).1 db.next_log_id).map SyncLog.started_at =
        some (some t)) ∧
    (∀ (orders : List ShopifyOrder) (c : String) (lid : Nat),
      lastSyncOf (syncOrders db t userId .auto (some c) (some lid)
        (.ok orders none) none).1 conn.id = some (t + 1)) := by
  have hex : ∃ x ∈ db.connections, x.id = conn.id :=
    ⟨conn, List.mem_of_find?_eq_some hc, rfl⟩
  refine ⟨by simp [buildParams, hT], ?_, ?_⟩
  · intro orders
    constructor
    · cases horders : orders.isEmpty with
      | true =>
        simp only [syncOrders, hc, horders]
        simp only [Option.isNone_none, Bool.and_self, if_true, Bool.not_true,
          Option.isSome_none, Bool.false_and, Bool.and_false,
          Bool.false_eq_true, if_false, if_true]
        exact lastSyncOf_updateConns_stamp _ conn.id (t + 2) hex
      | false =>
        simp only [syncOrders, hc, horders]
        simp only [Option.isNone_none, Bool.and_self, if_true, Bool.not_false,
          Option.isSome_none, Bool.true_and, Bool.and_false,
          Bool.false_eq_true, if_false]
        exact lastSyncOf_updateConns_stamp _ conn.id (t + 2) hex
    · cases horders : orders.isEmpty with
      | true =>
        simp only [syncOrders, hc, horders]
        simp only [Option.isNone_none, Bool.and_self, if_true, Bool.not_true,
          Option.isSome_none, Bool.false_and, Bool.and_false,
          Bool.false_eq_true, if_false, if_true]
        simp only [logFind, updateConns, updateLogs]
        exact logFind_fresh_updated_map SyncLog.started_at db.sync_logs _ _
          db.next_log_id rfl hfresh (fun l => rfl)
      | false =>
        simp only [syncOrders, hc, horders]
        simp only [Option.isNone_none, Bool.and_self, if_true, Bool.not_false,
          Option.isSome_none, Bool.true_and, Bool.and_false,
          Bool.false_eq_true, if_false]
        simp only [logFind, updateConns, updateLogs]
        exact logFind_fresh_updated_map SyncLog.started_at db.sync_logs _ _
          db.next_log_id rfl hfresh (fun l => rfl)
  · intro orders c lid
    cases horders : orders.isEmpty with
    | true =>
      simp only [syncOrders, hc, horders]
      simp only [Option.isNone_some, Bool.and_self, Bool.false_and, if_false,
        Bool.not_true, Bool.and_false, Option.isSome_none,
        Bool.false_eq_true, if_true]
      exact lastSyncOf_updateConns_stamp _ conn.id (t + 1) hex
    | false =>
      simp only [syncOrders, hc, horders]
      simp only [Option.isNone_some, Bool.and_self, Bool.false_and, if_false,
        Bool.not_false, Bool.and_false, Bool.true_and, Option.isSome_none,
        Bool.false_eq_true]
      exact lastSyncOf_updateConns_stamp _ conn.id (t + 1) hex

/-- Witness for the amended C3 at a concrete store. -/
theorem C3_auto_filter_and_completion_stamp_witness :
    buildParams .auto none connW.last_sync_at =
      { limit := 250, page_info := none, status_any := true
        updated_at_min := some 50, order_updated_asc := true } ∧
    lastSyncOf (syncOrders dbW 0 "u1" .auto none none
      (.ok [oBare] none) none).1 1 = some 2 := by
  have h := C3_auto_filter_and_completion_stamp dbW 0 "u1" connW 50
    (by decide) (by decide) (by intro l hl; simp [dbW] at hl)
  exact ⟨h.1, (h.2.1 [oBare]).1⟩

/-- Counterexample to C3 as stated: in a two-page auto run (first page at
clock 0, final page at clock 100) the completed run stamps the connection
with the completion-time clock 101, while the run's start time recorded on
its sync log is 0. -/
theorem C3_counterexample :
    lastSyncOf (syncOrders
      (syncOrders dbW 0 "u1" .auto none none
        (.ok [oBare] (some "pg")) none).1
      100 "u1" .auto (some "pg") (some 10) (.ok [oFull] none) none).1 1 =
      some 101 ∧
    (logFind (syncOrders
      (syncOrders dbW 0 "u1" .auto none none
        (.ok [oBare] (some "pg")) none).1
      100 "u1" .auto (some "pg") (some 10) (.ok [oFull] none) none).1
      10).map SyncLog.started_at = some (some 0) ∧
    some (101 : Nat) ≠ some (0 : Nat) := by
  refine ⟨by decide, by decide, by decide⟩

/-- Observation of the id-keyed updated row through any projection, when
the tracked row is present. -/
theorem logFind_update_map {β : Type} (g : SyncLog → β)
    (logs : List SyncLog) (i : Nat) (f : SyncLog → SyncLog) (l0 : SyncLog)
    (hfid : ∀ l, (f l).id = l.id)
    (hfind : logs.find? (fun l => l.id = i) = some l0) :
    Option.map g
      ((logs.map (fun l => if l.id = i then f l else l)).find?
        (fun l => l.id = i)) = some (g (f l0)) := by
  rw [logFind_update logs i f hfid, hfind]
  rfl

/-- C6: when the batch upsert of a page fails — on the fresh first page of
a run as well as on any resumed page of it — the invocation marks the
run's sync log with status error, the underlying message and a completion
timestamp, persists none of the page's rows, and propagates the failure to
the caller as a fatal 500 — it never reports success. -/
theorem C6_upsert_failure_marks_log (db : DB) (t : Nat) (userId : String)
    (mode : Mode) (orders : List ShopifyOrder) (nc : Option String)
    (msg : String) (conn : Conn)
    (hc : findActiveConn db userId = some conn) (ho : orders ≠ []) :
    ((∀ l ∈ db.sync_logs, l.id ≠ db.next_log_id) →
      (syncOrders db t userId mode none none (.ok orders nc)
        (some msg)).2.2 = .error 500 ("DB Upsert failed: " ++ msg) ∧
      (syncOrders db t userId mode none none (.ok orders nc)
        (some msg)).1.orders = db.orders ∧
      (logFind (syncOrders db t userId mode none none (.ok orders nc)
        (some msg)).1 db.next_log_id).map
        (fun l => (l.status, l.error_message, l.completed_at)) =
        some ("error", some msg, some (t + 1))) ∧
    (∀ (c : String) (L : Nat) (l0 : SyncLog), logFind db L = some l0 →
      (syncOrders db t userId mode (some c) (some L) (.ok orders nc)
        (some msg)).2.2 = .error 500 ("DB Upsert failed: " ++ msg) ∧
      (syncOrders db t userId mode (some c) (some L) (.ok orders nc)
        (some msg)).1.orders = db.orders ∧
      (logFind (syncOrders db t userId mode (some c) (some L)
        (.ok orders nc) (some msg)).1 L).map
        (fun l => (l.status, l.error_message, l.completed_at)) =
        some ("error", some msg, some t)) := by
  have hoe : orders.isEmpty = false := by
    cases orders with
    | nil => exact absurd rfl ho
    | cons a l => rfl
  constructor
  · intro hfresh
    refine ⟨?_, ?_, ?_⟩
    · simp [syncOrders, hc, hoe]
    · simp [syncOrders, hc, hoe, updateLogs]
    · simp only [syncOrders, hc]
      simp only [Option.isNone_none, Bool.and_self, if_true, hoe,
        Bool.not_false, Option.isSome_some, Bool.and_self, if_true]
      simp only [updateLogs, logFind]
      exact logFind_fresh_updated_map
        (fun l => (l.status, l.error_message, l.completed_at)) db.sync_logs
        _ _ db.next_log_id rfl hfresh (fun l => rfl)
  · intro c L l0 hlog
    have hlog' : db.sync_logs.find? (fun l => l.id = L) = some l0 := hlog
    refine ⟨?_, ?_, ?_⟩
    · simp [syncOrders, hc, hoe]
    · simp [syncOrders, hc, hoe, updateLogs]
    · simp only [syncOrders, hc]
      simp only [Option.isNone_some, Bool.false_and, Bool.and_false,
        Bool.false_eq_true, if_false, hoe, Bool.not_false,
        Option.isSome_some, Bool.and_self, if_true]
      simp only [updateLogs, logFind]
      refine logFind_update_map
        (fun l => (l.status, l.error_message, l.completed_at))
        db.sync_logs L _ _ ?_ hlog'
      intro l
      rfl

/-- Witness for C6 at concrete stores: a fresh first page and a resumed
second page, each suffering an upsert failure. -/
theorem C6_upsert_failure_marks_log_witness :
    (syncOrders dbW 0 "u1" .manual none none (.ok [oFull] none)
      (some "boom")).2.2 = .error 500 ("DB Upsert failed: " ++ "boom") ∧
    (syncOrders dbW 0 "u1" .manual none none (.ok [oFull] none)
      (some "boom")).1.orders = dbW.orders ∧
    (syncOrders dbResume 3 "u1" .manual (some "pg") (some 10)
      (.ok [oFull] none) (some "boom")).2.2 =
      .error 500 ("DB Upsert failed: " ++ "boom") ∧
    (syncOrders dbResume 3 "u1" .manual (some "pg") (some 10)
      (.ok [oFull] none) (some "boom")).1.orders = dbResume.orders ∧
    (logFind (syncOrders dbResume 3 "u1" .manual (some "pg") (some 10)
      (.ok [oFull] none) (some "boom")).1 10).map
      (fun l => (l.status, l.error_message, l.completed_at)) =
      some ("error", some "boom", some 3) := by
  have h1 := C6_upsert_failure_marks_log dbW 0 "u1" .manual [oFull] none
    "boom" connW (by decide) (by decide)
  have h2 := C6_upsert_failure_marks_log dbResume 3 "u1" .manual [oFull]
    none "boom" connW (by decide) (by decide)
  have hfresh1 : ∀ l ∈ dbW.sync_logs, l.id ≠ dbW.next_log_id := by
    intro l hl
    simp [dbW] at hl
  have hres2 := h2.2 "pg" 10 logInProg (by decide)
  exact ⟨(h1.1 hfresh1).1, (h1.1 hfresh1).2.1, hres2.1, hres2.2.1,
    hres2.2.2⟩

end Shop
